import Mathlib

/-!
Verification of the GPU text-rendering core of `openagent-terminal`
(`src/renderer/wgpu.rs`): the shelf-packing atlas allocator, the glyph
loader with its miss/eviction protocol, the eviction routine, the
projection uniform, the cell stager and the frame compositor control flow.

Modelling conventions:
* `u32`/`i32`/`u64` values are modelled as `Int` or `Nat`; wraparound is
  modelled explicitly (`% 2 ^ 64`) where the source uses `wrapping_add`,
  and `saturating_add` is modelled with `min`.
* `f32` UV and projection arithmetic is modelled over `ℚ`.  For the UV
  claims every source operation is exact in IEEE `f32` (integers up to
  2048 convert exactly, division by the power-of-two page size 2048 is
  exact, and differences of multiples of 2⁻¹¹ in `[0,1]` are exact), so
  the rational model agrees bit-for-bit with the float computation.
* GPU-side effects (texture writes, buffer writes) are modelled as
  explicit command records returned alongside the new CPU state.
-/

set_option linter.unusedVariables false

namespace OpenAgentTerminal

/-- Shelf-packing allocator state of one atlas page: struct `WgpuAtlas` in
`src/renderer/wgpu.rs` (`width`/`height` are `u32`, the row cursors are
`i32`, `used_area` is `u64`). -/
structure WgpuAtlas where
  width : Int
  height : Int
  row_extent : Int
  row_baseline : Int
  row_tallest : Int
  used_area : Nat
deriving DecidableEq, Repr

namespace WgpuAtlas

/-- Embeds `WgpuAtlas::new` (fresh square page of the given size). -/
def new (size : Int) : WgpuAtlas :=
  { width := size, height := size, row_extent := 0, row_baseline := 0,
    row_tallest := 0, used_area := 0 }

/-- Embeds `WgpuAtlas::clear`. -/
def clear (a : WgpuAtlas) : WgpuAtlas :=
  { a with row_extent := 0, row_baseline := 0, row_tallest := 0, used_area := 0 }

/-- Embeds `WgpuAtlas::room_in_row`. -/
def room_in_row (a : WgpuAtlas) (w h : Int) : Bool :=
  let next_extent := a.row_extent + w
  let enough_width := decide (next_extent ≤ a.width)
  let enough_height := decide (h < a.height - a.row_baseline)
  enough_width && enough_height

/-- Embeds `WgpuAtlas::advance_row`: the returned `Bool` is the Rust return
value, paired with the (possibly mutated) page state. -/
def advance_row (a : WgpuAtlas) : Bool × WgpuAtlas :=
  let advance_to := a.row_baseline + a.row_tallest
  if a.height - advance_to ≤ 0 then (false, a)
  else (true, { a with row_baseline := advance_to, row_extent := 0, row_tallest := 0 })

/-- Emitting step at the end of `WgpuAtlas::insert`: hand out
`(row_extent, row_baseline)` and advance the cursor. -/
def emitAt (a1 : WgpuAtlas) (w h : Int) : Option (Int × Int) × WgpuAtlas :=
  (some (a1.row_extent, a1.row_baseline),
   { a1 with
      row_extent := a1.row_extent + w,
      row_tallest := if h > a1.row_tallest then h else a1.row_tallest })

/-- Embeds `WgpuAtlas::insert`: the optional placement, paired with the
mutated page state.  The source writes the fit logic as two early-return
checks (`if !room_in_row { if !advance_row { return None } }` followed by a
re-check); this definition is the same control flow written as a decision
tree.  Note that a failed insert may still have advanced the row (when
`advance_row` succeeded but the re-checked fit failed), exactly as in the
source, where `self` is mutated in place. -/
def insert (a : WgpuAtlas) (w h : Int) : Option (Int × Int) × WgpuAtlas :=
  if w > a.width ∨ h > a.height then (none, a)
  else if a.room_in_row w h then a.emitAt w h
  else
    let r := a.advance_row
    if r.1 then
      if r.2.room_in_row w h then r.2.emitAt w h else (none, r.2)
    else (none, a)

end WgpuAtlas

/-- Runs a sequence of `insert` requests against a page, returning the list
of per-call results together with the final page state. -/
def runInserts (a : WgpuAtlas) : List (Int × Int) → List (Option (Int × Int)) × WgpuAtlas
  | [] => ([], a)
  | (w, h) :: rest =>
      let r := a.insert w h
      let t := runInserts r.2 rest
      (r.1 :: t.1, t.2)

/-- Placement rectangle `[x, x+w) × [y, y+h)` returned by a successful
`insert` call, remembered together with the requested dimensions. -/
structure Rect where
  x : Int
  y : Int
  w : Int
  h : Int
deriving DecidableEq, Repr

/-- Collects, in call order, the rectangles placed by a sequence of
`insert` requests on a page. -/
def placedRects (a : WgpuAtlas) : List (Int × Int) → List Rect
  | [] => []
  | (w, h) :: rest =>
      match a.insert w h with
      | (some p, a1) => { x := p.1, y := p.2, w := w, h := h } :: placedRects a1 rest
      | (none, a1) => placedRects a1 rest

/-- Membership of an integer point in a placement rectangle. -/
def inRect (r : Rect) (p : Int × Int) : Prop :=
  r.x ≤ p.1 ∧ p.1 < r.x + r.w ∧ r.y ≤ p.2 ∧ p.2 < r.y + r.h

/-- Two placement rectangles are disjoint when no integer point lies in both. -/
def rectDisjoint (r1 r2 : Rect) : Prop :=
  ∀ p : Int × Int, ¬ (inRect r1 p ∧ inRect r2 p)

/-- Containment of a placement rectangle in a `W × H` page. -/
def rectInPage (r : Rect) (W H : Int) : Prop :=
  0 ≤ r.x ∧ r.x + r.w ≤ W ∧ 0 ≤ r.y ∧ r.y + r.h ≤ H

/-- Position of an already-placed rectangle relative to the allocator
cursor: it lies entirely above the current row baseline, or it sits in the
current row, left of the cursor and no taller than the row record. -/
def rowClass (r : Rect) (a : WgpuAtlas) : Prop :=
  r.y + r.h ≤ a.row_baseline ∨
    (r.y = a.row_baseline ∧ r.x + r.w ≤ a.row_extent ∧ r.h ≤ a.row_tallest)

/-- Allocator invariant tying a page state to the rectangles it has handed
out since the last clear. -/
structure Inv (W H : Int) (a : WgpuAtlas) (placed : List Rect) : Prop where
  wdim : a.width = W
  hdim : a.height = H
  ext_nonneg : 0 ≤ a.row_extent
  base_nonneg : 0 ≤ a.row_baseline
  tall_nonneg : 0 ≤ a.row_tallest
  placed_in : ∀ r ∈ placed, rectInPage r W H
  placed_row : ∀ r ∈ placed, rowClass r a
  placed_disj : placed.Pairwise rectDisjoint

lemma rectDisjoint_of_x_le {r1 r2 : Rect} (h : r1.x + r1.w ≤ r2.x) :
    rectDisjoint r1 r2 := by
  intro p hp
  obtain ⟨h1, h2⟩ := hp
  unfold inRect at h1 h2
  omega

lemma rectDisjoint_of_y_le {r1 r2 : Rect} (h : r1.y + r1.h ≤ r2.y) :
    rectDisjoint r1 r2 := by
  intro p hp
  obtain ⟨h1, h2⟩ := hp
  unfold inRect at h1 h2
  omega

lemma room_in_row_iff {a : WgpuAtlas} {w h : Int} :
    a.room_in_row w h = true ↔
      a.row_extent + w ≤ a.width ∧ h < a.height - a.row_baseline := by
  simp [WgpuAtlas.room_in_row]

lemma advance_row_inv {W H : Int} {a : WgpuAtlas} {placed : List Rect}
    (hinv : Inv W H a placed) : Inv W H (a.advance_row).2 placed := by
  simp only [WgpuAtlas.advance_row]
  split
  · exact hinv
  · obtain ⟨hw, hh, he, hb, ht, hin, hrow, hdisj⟩ := hinv
    refine ⟨hw, hh, le_refl 0, by simpa using add_nonneg hb ht, le_refl 0, hin, ?_, hdisj⟩
    intro r hr
    have := hrow r hr
    simp only [rowClass] at this ⊢
    omega

/-- The fit-and-emit step of `insert`, taken from a state whose fit check
succeeded, extends the invariant with the new rectangle. -/
lemma emit_inv {W H : Int} {a1 : WgpuAtlas} {placed : List Rect} {w h : Int}
    (hinv : Inv W H a1 placed) (hw : 0 ≤ w) (hh : 0 ≤ h)
    (hroom : a1.room_in_row w h = true) :
    Inv W H (a1.emitAt w h).2
      (placed ++ [{ x := a1.row_extent, y := a1.row_baseline, w := w, h := h }]) := by
  obtain ⟨hwd, hhd, he, hb, ht, hin, hrow, hdisj⟩ := hinv
  rw [room_in_row_iff] at hroom
  simp only [WgpuAtlas.emitAt]
  constructor
  · exact hwd
  · exact hhd
  · simpa using add_nonneg he hw
  · exact hb
  · dsimp only
    split <;> omega
  · intro r hr
    rcases List.mem_append.mp hr with hr | hr
    · exact hin r hr
    · simp only [List.mem_singleton] at hr
      subst hr
      simp only [rectInPage]
      omega
  · intro r hr
    rcases List.mem_append.mp hr with hr | hr
    · have hthis := hrow r hr
      simp only [rowClass] at hthis
      show r.y + r.h ≤ a1.row_baseline ∨
        (r.y = a1.row_baseline ∧ r.x + r.w ≤ a1.row_extent + w ∧
          r.h ≤ if h > a1.row_tallest then h else a1.row_tallest)
      split <;> omega
    · simp only [List.mem_singleton] at hr
      subst hr
      show a1.row_baseline + h ≤ a1.row_baseline ∨
        (a1.row_baseline = a1.row_baseline ∧ a1.row_extent + w ≤ a1.row_extent + w ∧
          h ≤ if h > a1.row_tallest then h else a1.row_tallest)
      split <;> omega
  · rw [List.pairwise_append]
    refine ⟨hdisj, List.pairwise_singleton _ _, ?_⟩
    intro r hr n hn
    simp only [List.mem_singleton] at hn
    subst hn
    have hthis := hrow r hr
    simp only [rowClass] at hthis
    rcases hthis with hcase | hcase
    · exact rectDisjoint_of_y_le (by show r.y + r.h ≤ a1.row_baseline; omega)
    · exact rectDisjoint_of_x_le (by show r.x + r.w ≤ a1.row_extent; omega)

/-- A failed `insert` leaves the invariant intact (even when it advanced
the row). -/
lemma insert_none_inv {W H : Int} {a a' : WgpuAtlas} {placed : List Rect} {w h : Int}
    (hinv : Inv W H a placed) (heq : a.insert w h = (none, a')) :
    Inv W H a' placed := by
  simp only [WgpuAtlas.insert] at heq
  split_ifs at heq with h1 h2 h3 h4
  · injection heq with hr hs
    exact hs ▸ hinv
  · simp [WgpuAtlas.emitAt] at heq
  · simp [WgpuAtlas.emitAt] at heq
  · injection heq with hr hs
    exact hs ▸ advance_row_inv hinv
  · injection heq with hr hs
    exact hs ▸ hinv

/-- A successful `insert` extends the invariant with the returned rectangle. -/
lemma insert_some_inv {W H : Int} {a a' : WgpuAtlas} {placed : List Rect}
    {w h x y : Int}
    (hinv : Inv W H a placed) (hw : 0 ≤ w) (hh : 0 ≤ h)
    (heq : a.insert w h = (some (x, y), a')) :
    Inv W H a' (placed ++ [{ x := x, y := y, w := w, h := h }]) := by
  simp only [WgpuAtlas.insert] at heq
  split_ifs at heq with h1 h2 h3 h4
  · simp at heq
  · have hxy : a.row_extent = x ∧ a.row_baseline = y ∧ (a.emitAt w h).2 = a' := by
      simp only [WgpuAtlas.emitAt, Prod.mk.injEq, Option.some.injEq] at heq
      exact ⟨heq.1.1, heq.1.2, heq.2⟩
    obtain ⟨hx, hy, hs⟩ := hxy
    have := emit_inv hinv hw hh h2
    rw [hx, hy] at this
    exact hs ▸ this
  · have hxy : (a.advance_row).2.row_extent = x ∧ (a.advance_row).2.row_baseline = y ∧
        ((a.advance_row).2.emitAt w h).2 = a' := by
      simp only [WgpuAtlas.emitAt, Prod.mk.injEq, Option.some.injEq] at heq
      exact ⟨heq.1.1, heq.1.2, heq.2⟩
    obtain ⟨hx, hy, hs⟩ := hxy
    have := emit_inv (advance_row_inv hinv) hw hh h4
    rw [hx, hy] at this
    exact hs ▸ this
  · simp at heq
  · simp at heq

/-- Running a request sequence preserves the invariant, accumulating the
placed rectangles. -/
lemma placedRects_inv {W H : Int} :
    ∀ (ops : List (Int × Int)) (a : WgpuAtlas) (placed : List Rect),
    Inv W H a placed → (∀ p ∈ ops, 0 ≤ p.1 ∧ 0 ≤ p.2) →
    ∃ a', Inv W H a' (placed ++ placedRects a ops)
  | [], a, placed, hinv, _ => ⟨a, by simpa [placedRects] using hinv⟩
  | (w, h) :: rest, a, placed, hinv, hops => by
      have hw : 0 ≤ w := (hops (w, h) (List.mem_cons_self _ _)).1
      have hh : 0 ≤ h := (hops (w, h) (List.mem_cons_self _ _)).2
      have hops' : ∀ p ∈ rest, 0 ≤ p.1 ∧ 0 ≤ p.2 :=
        fun p hp => hops p (List.mem_cons_of_mem _ hp)
      unfold placedRects
      rcases hins : a.insert w h with ⟨res, a1⟩
      cases res with
      | none =>
          simp only
          exact placedRects_inv rest a1 placed (insert_none_inv hinv hins) hops'
      | some p =>
          rcases p with ⟨x, y⟩
          simp only
          have hinv1 := insert_some_inv hinv hw hh hins
          have := placedRects_inv rest a1 (placed ++ [{ x := x, y := y, w := w, h := h }]) hinv1 hops'
          simpa [List.append_assoc] using this

/-- C1 (counterexample): the claim quantifies over arbitrary `insert (w, h)`
calls, but with a negative requested width the allocator hands out a
placement with `x = -5 < 0`, violating `0 ≤ x` (the `i32` dimensions are
only range-checked from above). -/
theorem C1_counterexample :
    ¬ (∀ r ∈ placedRects (WgpuAtlas.new 16) [(-5, 3), (3, 3)], 0 ≤ r.x) := by
  decide

/-- C1 (amended): for any sequence of `insert` calls with nonnegative
requested dimensions on a fresh (or just-cleared) page, every returned
placement rectangle `[x, x+w) × [y, y+h)` lies within
`[0, width) × [0, height)`, and the rectangles returned by distinct
successful calls are pairwise disjoint. -/
theorem C1_insert_packing_correct (a : WgpuAtlas) (ops : List (Int × Int))
    (hext : a.row_extent = 0) (hbase : a.row_baseline = 0) (htall : a.row_tallest = 0)
    (hops : ∀ p ∈ ops, 0 ≤ p.1 ∧ 0 ≤ p.2) :
    (∀ r ∈ placedRects a ops,
        0 ≤ r.x ∧ r.x + r.w ≤ a.width ∧ 0 ≤ r.y ∧ r.y + r.h ≤ a.height)
    ∧ (placedRects a ops).Pairwise rectDisjoint := by
  have hinv : Inv a.width a.height a [] :=
    ⟨rfl, rfl, by omega, by omega, by omega, by simp, by simp, List.Pairwise.nil⟩
  obtain ⟨a', hinv'⟩ := placedRects_inv ops a [] hinv hops
  simp only [List.nil_append] at hinv'
  exact ⟨fun r hr => hinv'.placed_in r hr, hinv'.placed_disj⟩

/-- Witness for C1: the amended theorem applied to a fresh 16×16 page and
three 8×8 requests. -/
theorem C1_insert_packing_correct_witness :
    ((WgpuAtlas.new 16).row_extent = 0 ∧ (WgpuAtlas.new 16).row_baseline = 0 ∧
      (WgpuAtlas.new 16).row_tallest = 0 ∧
      (∀ p ∈ [((8 : Int), (8 : Int)), (8, 8), (8, 8)], 0 ≤ p.1 ∧ 0 ≤ p.2)) ∧
    ((∀ r ∈ placedRects (WgpuAtlas.new 16) [(8, 8), (8, 8), (8, 8)],
        0 ≤ r.x ∧ r.x + r.w ≤ (WgpuAtlas.new 16).width ∧
        0 ≤ r.y ∧ r.y + r.h ≤ (WgpuAtlas.new 16).height)
      ∧ (placedRects (WgpuAtlas.new 16) [(8, 8), (8, 8), (8, 8)]).Pairwise rectDisjoint) :=
  ⟨⟨rfl, rfl, rfl, by decide⟩,
    C1_insert_packing_correct (WgpuAtlas.new 16) [(8, 8), (8, 8), (8, 8)]
      rfl rfl rfl (by decide)⟩

/-- C2 (counterexample): on a fresh 16×16 page the fourth `insert (16, 4)`
call already fails (it returns `none`, not a placement at `y = 12`): the
strict fit check `h < height - row_baseline` rejects a fourth 4-tall shelf
at baseline 12. -/
theorem C2_counterexample :
    (runInserts (WgpuAtlas.new 16) [(16, 4), (16, 4), (16, 4), (16, 4)]).1
      = [some (0, 0), some (0, 4), some (0, 8), none] := by
  decide

/-- C2 (amended): on a fresh 16×16 page, the first three `insert (16, 4)`
calls succeed at `y = 0, 4, 8` and the fourth and fifth calls fail. -/
theorem C2_shelf_advance :
    (runInserts (WgpuAtlas.new 16) [(16, 4), (16, 4), (16, 4), (16, 4), (16, 4)]).1
      = [some (0, 0), some (0, 4), some (0, 8), none, none] := by
  decide

/-! Renderer state: `WgpuRenderer` in `src/renderer/wgpu.rs`, restricted to
its CPU-observable fields (GPU handles, pipelines and bind groups carry no
claim-relevant state).  GPU writes are modelled as explicit command values. -/

/-- Eviction policy enum from `src/config/debug.rs`. -/
inductive AtlasEvictionPolicy
  | RoundRobin
  | LruMinOccupancy
deriving DecidableEq, Repr

/-- Page count `NUM_ATLAS_PAGES` from `src/renderer/wgpu.rs`. -/
def NUM_ATLAS_PAGES : Nat := 4

/-- Page size `ATLAS_SIZE` from `WgpuRenderer::new`. -/
def ATLAS_SIZE : Int := 2048

def U64_MOD : Nat := 2 ^ 64

def U32_MOD : Nat := 2 ^ 32

/-- Wrapping `u64` arithmetic (`wrapping_add` in the source). -/
def wrap64 (n : Nat) : Nat := n % U64_MOD

/-- Saturating `u64` addition (`saturating_add` in the source). -/
def satAdd64 (a b : Nat) : Nat := min (a + b) (U64_MOD - 1)

/-- Value of an `i32` reinterpreted as `u64` (`as u64` in the source). -/
def u64ofInt (i : Int) : Nat := (i % (U64_MOD : Int)).toNat

/-- Value of an `i32` reinterpreted as `u32` (`as u32` in the source). -/
def u32ofInt (i : Int) : Nat := (i % (U32_MOD : Int)).toNat

/-- Glyph record handed back by the loader (struct `Glyph` of the renderer
module; `tex_id` is `u32`, bearings and sizes are `i16`, UVs are `f32`,
modelled over `ℚ`). -/
structure Glyph where
  tex_id : Nat
  multicolor : Bool
  top : Int
  left : Int
  width : Int
  height : Int
  uv_bot : ℚ
  uv_left : ℚ
  uv_width : ℚ
  uv_height : ℚ
deriving DecidableEq, Repr

/-- Rasterized glyph bitmap from the font rasterizer (crossfont
`BitmapBuffer`): RGBA32 color data or RGB coverage data, as byte lists. -/
inductive BitmapBuffer
  | Rgba (buf : List Nat)
  | Rgb (buf : List Nat)
deriving DecidableEq, Repr

/-- Input to `load_glyph` (crossfont `RasterizedGlyph`; `width`/`height`
are `i32`). -/
structure RasterizedGlyph where
  width : Int
  height : Int
  top : Int
  left : Int
  buffer : BitmapBuffer
deriving DecidableEq, Repr

/-- Per-vertex text datum (struct `TextVertex`). -/
structure TextVertex where
  pos : ℚ × ℚ
  uv : ℚ × ℚ
  color : Nat × Nat × Nat × Nat
  flags : Nat
  layer : Nat
deriving DecidableEq, Repr

/-- RGB color (struct `Rgb` of the display module). -/
structure Rgb where
  r : Nat
  g : Nat
  b : Nat
deriving DecidableEq, Repr

/-- Background/overlay rectangle (struct `RenderRect` of `renderer/rects.rs`,
referenced through its fields only). -/
structure RenderRect where
  x : ℚ
  y : ℚ
  width : ℚ
  height : ℚ
  color : Rgb
  alpha : ℚ
deriving DecidableEq, Repr

/-- Projection parameters (struct `ProjParams`). -/
structure ProjParams where
  offset_x : ℚ
  offset_y : ℚ
  scale_x : ℚ
  scale_y : ℚ
deriving DecidableEq, Repr

/-- Embeds `projection_from_size`. -/
def projection_from_size (size : Nat × Nat) : ProjParams :=
  let w : ℚ := (max size.1 1 : Nat)
  let h : ℚ := (max size.2 1 : Nat)
  { offset_x := -1, offset_y := 1, scale_x := 2 / w, scale_y := -2 / h }

/-- NDC transform applied per vertex by `vs_main` of `TEXT_SHADER_WGSL`:
`ndc = (offset_x + pos.x * scale_x, offset_y + pos.y * scale_y)`. -/
def ndcOf (p : ProjParams) (pos : ℚ × ℚ) : ℚ × ℚ :=
  (p.offset_x + pos.1 * p.scale_x, p.offset_y + pos.2 * p.scale_y)

/-- CPU-observable state of `WgpuRenderer` (page metadata `last_use` values
are inlined as a `List Nat` mirroring `Vec<AtlasPageMeta>`; the projection
uniform buffer contents are mirrored in `proj_uniform`). -/
structure WgpuRenderer where
  size : Nat × Nat
  atlas_pages : List WgpuAtlas
  page_meta : List Nat
  current_page : Nat
  use_clock : Nat
  pending_eviction : Option Nat
  proj_uniform : ProjParams
  is_srgb_surface : Bool
  subpixel_enabled : Bool
  zero_evicted_layer : Bool
  policy : AtlasEvictionPolicy
  zero_scratch : List Nat
  atlas_inserts : Nat
  atlas_insert_misses : Nat
  atlas_evictions_count : Nat
  pending_clear : Option (ℚ × ℚ × ℚ × ℚ)
  pending_text : List TextVertex
  pending_bg : List RenderRect
  atlas_evicted : Bool
deriving DecidableEq, Repr

/-- Modelled from the spec: the tail of the struct literal in
`WgpuRenderer::new` is truncated in the provided source (the closing brace
was swallowed by a line comment, and the initializers of `zero_scratch`,
the counters, the frame-scratch buffers and `atlas_evicted` are missing).
Spec §4.2 step 3 requires "a zero-filled buffer of size `width·height·4`
bytes" for the evicted-layer clear, so `zero_scratch` is a zero buffer for
one 2048×2048 RGBA8 page. -/
def initZeroScratch : List Nat := List.replicate (2048 * 2048 * 4) 0

/-- State built by `WgpuRenderer::new` for a given size and configuration.
The pages, metadata, cursor, clock and pending eviction follow the visible
part of the struct literal; `zero_scratch`, the counters, the scratch
buffers and `atlas_evicted` are modelled from the spec (fresh counters,
empty frame scratch, unset one-shot flag) because the literal is truncated
in the provided source. -/
def WgpuRenderer.new (size : Nat × Nat) (is_srgb_surface subpixel_enabled : Bool)
    (zero_evicted_layer : Bool) (policy : AtlasEvictionPolicy) : WgpuRenderer :=
  { size := size,
    atlas_pages := List.replicate NUM_ATLAS_PAGES (WgpuAtlas.new ATLAS_SIZE),
    page_meta := List.replicate NUM_ATLAS_PAGES 0,
    current_page := 0,
    use_clock := 1,
    pending_eviction := none,
    proj_uniform := projection_from_size size,
    is_srgb_surface := is_srgb_surface,
    subpixel_enabled := subpixel_enabled,
    zero_evicted_layer := zero_evicted_layer,
    policy := policy,
    zero_scratch := initZeroScratch,
    atlas_inserts := 0,
    atlas_insert_misses := 0,
    atlas_evictions_count := 0,
    pending_clear := none,
    pending_text := [],
    pending_bg := [],
    atlas_evicted := false }

/-- Embeds `WgpuRenderer::resize`: store the new size and rewrite the
projection uniform (the surface itself is reconfigured on the next draw). -/
def WgpuRenderer.resize (st : WgpuRenderer) (width height : Nat) : WgpuRenderer :=
  { st with size := (width, height),
            proj_uniform := projection_from_size (width, height) }

/-- Texture upload issued by `load_glyph` on a successful insert
(`queue.write_texture` call: origin, pixel data, layout, extent). -/
structure UploadCmd where
  origin : Nat × Nat × Nat
  data : List Nat
  bytes_per_row : Nat
  rows_per_image : Nat
  extent : Nat × Nat × Nat
deriving DecidableEq, Repr

/-- Conversion of RGB coverage bytes to RGBA8 in `load_glyph`: per 3-byte
chunk write `(0, 0, 0, red)`; `chunks_exact(3)` drops a trailing partial
chunk. -/
def rgbToRgba : List Nat → List Nat
  | r :: _ :: _ :: rest => 0 :: 0 :: 0 :: r :: rgbToRgba rest
  | _ => []

/-- Pixel-data preparation in `load_glyph`: RGBA input is copied and marked
`multicolor`; RGB coverage input is expanded by `rgbToRgba`. -/
def bitmapToRgba : BitmapBuffer → List Nat × Bool
  | .Rgba buf => (buf, true)
  | .Rgb buf => (rgbToRgba buf, false)

/-- Page-probe loop at the top of `load_glyph`: try `insert` on each of the
`NUM_ATLAS_PAGES` pages starting at `current_page`, modulo the page count.
A failed `insert` may still mutate the probed page (row advance), exactly
as in the source; the mutated pages are threaded through. -/
def probeAux (w h : Int) (cur : Nat) :
    Nat → Nat → List WgpuAtlas → Option (Nat × Int × Int) × List WgpuAtlas
  | _, 0, pages => (none, pages)
  | i, Nat.succ fuel, pages =>
      let page := (cur + i) % NUM_ATLAS_PAGES
      let r := (pages.getD page (WgpuAtlas.new 0)).insert w h
      match r.1 with
      | some p => (some (page, p.1, p.2), pages.set page r.2)
      | none => probeAux w h cur (i + 1) fuel (pages.set page r.2)

/-- The probe loop run over all `NUM_ATLAS_PAGES` pages. -/
def probePages (pages : List WgpuAtlas) (cur : Nat) (w h : Int) :
    Option (Nat × Int × Int) × List WgpuAtlas :=
  probeAux w h cur 0 NUM_ATLAS_PAGES pages

/-- Strict lexicographic `<` on `(last_use, used_area)` keys, as the Rust
tuple `Ord` used by `key < best_key`. -/
def keyLtb (a b : Nat × Nat) : Bool :=
  decide (a.1 < b.1) || (decide (a.1 = b.1) && decide (a.2 < b.2))

/-- Key `(last_use, used_area)` of page `i` read during victim selection. -/
def victimKey (meta : List Nat) (pages : List WgpuAtlas) (i : Nat) : Nat × Nat :=
  (meta.getD i 0, (pages.getD i (WgpuAtlas.new 0)).used_area)

/-- The `LruMinOccupancy` victim scan of `load_glyph`: fold over pages
`0..NUM_ATLAS_PAGES`, keeping the strictly smallest key (first index wins
ties), starting from `best_i = 0`, `best_key = (u64::MAX, u64::MAX)`. -/
def lruScan (meta : List Nat) (pages : List WgpuAtlas) :
    Nat → Nat → Nat → Nat × Nat → Nat
  | _, 0, best_i, _ => best_i
  | i, Nat.succ fuel, best_i, best_key =>
      let key := victimKey meta pages i
      if keyLtb key best_key then lruScan meta pages (i + 1) fuel i key
      else lruScan meta pages (i + 1) fuel best_i best_key

/-- Victim under `LruMinOccupancy`. -/
def selectVictimLru (meta : List Nat) (pages : List WgpuAtlas) : Nat :=
  lruScan meta pages 0 NUM_ATLAS_PAGES 0 (U64_MOD - 1, U64_MOD - 1)

/-- Victim-page selection on an atlas miss, by policy (from the `None` arm
of `load_glyph`). -/
def selectVictim (policy : AtlasEvictionPolicy) (cur : Nat) (meta : List Nat)
    (pages : List WgpuAtlas) : Nat :=
  match policy with
  | .RoundRobin => (cur + 1) % NUM_ATLAS_PAGES
  | .LruMinOccupancy => selectVictimLru meta pages

/-- Embeds `WgpuGlyphLoader::load_glyph`: probe the pages; on success
update LRU metadata, `used_area`, the insert counter and `current_page`,
upload the converted pixels, and return the glyph with UVs normalized by
the dimensions of page 0; on a miss select a victim by policy, schedule it
with `pending_eviction.get_or_insert`, raise the one-shot `atlas_evicted`
flag, bump the miss counter, and return the zero-sized placeholder. -/
def load_glyph (st : WgpuRenderer) (rasterized : RasterizedGlyph) :
    Glyph × WgpuRenderer × Option UploadCmd :=
  let w := rasterized.width
  let h := rasterized.height
  let probe := probePages st.atlas_pages st.current_page w h
  match probe.1 with
  | some (page, ox, oy) =>
      let ts := st.use_clock
      let pages1 := probe.2
      let pg := pages1.getD page (WgpuAtlas.new 0)
      let pages2 := pages1.set page
        { pg with used_area := satAdd64 pg.used_area (wrap64 (u64ofInt w * u64ofInt h)) }
      let st1 := { st with
        atlas_pages := pages2,
        current_page := page,
        use_clock := wrap64 (st.use_clock + 1),
        page_meta := st.page_meta.set page ts,
        atlas_inserts := wrap64 (st.atlas_inserts + 1) }
      let conv := bitmapToRgba rasterized.buffer
      let upload : UploadCmd :=
        { origin := (u32ofInt ox, u32ofInt oy, page),
          data := conv.1,
          bytes_per_row := (4 * u32ofInt w) % U32_MOD,
          rows_per_image := u32ofInt h,
          extent := (u32ofInt w, u32ofInt h, 1) }
      let page_dims := pages2.getD 0 (WgpuAtlas.new 0)
      let u0 : ℚ := (ox : ℚ) / (page_dims.width : ℚ)
      let v0 : ℚ := (oy : ℚ) / (page_dims.height : ℚ)
      let u1 : ℚ := ((ox + w : Int) : ℚ) / (page_dims.width : ℚ)
      let v1 : ℚ := ((oy + h : Int) : ℚ) / (page_dims.height : ℚ)
      ({ tex_id := page + 1,
         multicolor := conv.2,
         top := rasterized.top,
         left := rasterized.left,
         width := w,
         height := h,
         uv_bot := v0,
         uv_left := u0,
         uv_width := u1 - u0,
         uv_height := v1 - v0 },
       st1, some upload)
  | none =>
      let victim := selectVictim st.policy st.current_page st.page_meta probe.2
      let st1 := { st with
        atlas_pages := probe.2,
        pending_eviction := some (st.pending_eviction.getD victim),
        atlas_evicted := true,
        atlas_insert_misses := wrap64 (st.atlas_insert_misses + 1) }
      ({ tex_id := 0,
         multicolor := false,
         top := rasterized.top,
         left := rasterized.left,
         width := 0,
         height := 0,
         uv_bot := 0,
         uv_left := 0,
         uv_width := 0,
         uv_height := 0 },
       st1, none)

/-- GPU zero-fill of the evicted layer issued by `evict_one_page` when
`zero_evicted_layer` is set (`queue.write_texture` of `zero_scratch`). -/
structure ZeroFillCmd where
  layer : Nat
  data : List Nat
  bytes_per_row : Nat
  rows_per_image : Nat
  extent : Nat × Nat × Nat
deriving DecidableEq, Repr

/-- Embeds `WgpuRenderer::evict_one_page`: consume `pending_eviction` if
set; clear the victim page's allocator state and its `last_use`; optionally
emit the zero-fill of the victim layer; set `current_page` to the victim
and bump the eviction counter.  The debug telemetry record only reads state
and is not modelled.  `List.set` is a no-op out of range, matching the
source's `get_mut` guards. -/
def evict_one_page (st : WgpuRenderer) : Bool × WgpuRenderer × Option ZeroFillCmd :=
  match st.pending_eviction with
  | some layer =>
      let pages1 := st.atlas_pages.set layer
        ((st.atlas_pages.getD layer (WgpuAtlas.new 0)).clear)
      let meta1 := st.page_meta.set layer 0
      let cmd : Option ZeroFillCmd :=
        if st.zero_evicted_layer then
          let width := (pages1.getD 0 (WgpuAtlas.new 0)).width
          let height := (pages1.getD 0 (WgpuAtlas.new 0)).height
          some { layer := layer,
                 data := st.zero_scratch,
                 bytes_per_row := (4 * u32ofInt width) % U32_MOD,
                 rows_per_image := u32ofInt height,
                 extent := (u32ofInt width, u32ofInt height, 1) }
        else none
      (true,
       { st with
          atlas_pages := pages1,
          page_meta := meta1,
          pending_eviction := none,
          current_page := layer,
          atlas_evictions_count := wrap64 (st.atlas_evictions_count + 1) },
       cmd)
  | none => (false, st, none)

/-- Style flags of a renderable cell (the `HIDDEN`, `BOLD`, `ITALIC` bits
of the core `Flags` bitfield used by `draw_cells`). -/
structure CellFlags where
  hidden : Bool
  bold : Bool
  italic : Bool
deriving DecidableEq, Repr

/-- Renderable cell as consumed by `draw_cells` (fields not used by the
character-normalization claim, such as colors and position, are carried by
the surrounding code untouched and omitted here). -/
structure RenderableCell where
  character : Char
  zerowidth : Option (List Char)
  flags : CellFlags
deriving DecidableEq, Repr

/-- Font key classes selected by `draw_cells` from the `BOLD`/`ITALIC`
flag pair. -/
inductive FontStyle
  | regular
  | bold
  | italic
  | boldItalic
deriving DecidableEq, Repr

/-- Font selection in `draw_cells`: `flags & BOLD_ITALIC` matched against
`BOLD_ITALIC`, `ITALIC`, `BOLD`, then the regular font. -/
def fontForFlags (f : CellFlags) : FontStyle :=
  if f.bold && f.italic then .boldItalic
  else if f.italic then .italic
  else if f.bold then .bold
  else .regular

/-- Glyph keys (font, character) for which `draw_cells` emits a textured
quad for one cell, in emission order: the primary glyph after the
tab/hidden normalization (`if cell.character == '\t' || hidden { ' ' }`),
then the zero-width characters, which the source keeps only when the cell
is not hidden (`zerowidth.take().filter(|_| !hidden)`).  The glyph-cache
lookup and the vertex geometry of each quad are abstracted; one list entry
corresponds to one emitted quad. -/
def stagedGlyphKeys (cell : RenderableCell) : List (FontStyle × Char) :=
  let hidden := cell.flags.hidden
  let character := if cell.character = '\t' || hidden then ' ' else cell.character
  let font_key := fontForFlags cell.flags
  let zw : List Char :=
    match cell.zerowidth with
    | some zw => if !hidden then zw else []
    | none => []
  (font_key, character) :: zw.map (fun ch => (font_key, ch))

/-- Swapchain acquisition errors (`wgpu::SurfaceError`). -/
inductive SurfaceError
  | Outdated
  | Lost
  | OutOfMemory
  | Timeout
deriving DecidableEq, Repr

instance : DecidableEq (Except SurfaceError Unit) := fun a b =>
  match a, b with
  | .ok (), .ok () => isTrue rfl
  | .ok (), .error _ => isFalse (fun hh => Except.noConfusion hh)
  | .error _, .ok () => isFalse (fun hh => Except.noConfusion hh)
  | .error e1, .error e2 =>
      match decEq e1 e2 with
      | isTrue hh => isTrue (hh ▸ rfl)
      | isFalse hh => isFalse (fun hc => hh (by injection hc))

/-- Outcomes of the window-system interactions during one `draw_rects`
call: surface creation and the two `get_current_texture` attempts. -/
structure FrameEnv where
  create_surface_ok : Bool
  acquire1 : Except SurfaceError Unit
  acquire2 : Except SurfaceError Unit
deriving DecidableEq, Repr

/-- Contents of one presented frame: the clear color of the rects pass, the
rectangles drawn (staged backgrounds then the caller's rectangles), and the
text vertices of the text pass. -/
structure Frame where
  clear : ℚ × ℚ × ℚ × ℚ
  rects : List RenderRect
  text : List TextVertex
deriving DecidableEq, Repr

/-- Frame-presenting tail of `draw_rects`, reached once a swapchain image
is acquired: drain `pending_bg` in front of the caller's rectangles,
consume `pending_clear` (transparent if unset), draw both passes, clear
`pending_text`, present.  The per-rectangle vertex expansion is a pure
function of the drawn rectangle list and of the size and is not modelled
(no claim depends on it). -/
def presentFrame (st : WgpuRenderer) (rects_in : List RenderRect) :
    WgpuRenderer × Option Frame :=
  let all_rects := st.pending_bg ++ rects_in
  let clear :=
    match st.pending_clear with
    | some c => c
    | none => ((0 : ℚ), (0 : ℚ), (0 : ℚ), (0 : ℚ))
  let frame : Frame := { clear := clear, rects := all_rects, text := st.pending_text }
  ({ st with pending_bg := [], pending_clear := none, pending_text := [] }, some frame)

/-- Embeds the control flow of `WgpuRenderer::draw_rects`: recreate the
surface (abandon the frame on failure); acquire the swapchain image; on
`Outdated`/`Lost` reconfigure and retry once; on `OutOfMemory`/`Timeout`
abandon; with an image in hand, present via `presentFrame`.  `none` as the
frame output means the frame was dropped. -/
def draw_rects (env : FrameEnv) (st : WgpuRenderer) (rects_in : List RenderRect) :
    WgpuRenderer × Option Frame :=
  if !env.create_surface_ok then (st, none)
  else
    match env.acquire1 with
    | .ok _ => presentFrame st rects_in
    | .error e =>
        match e with
        | .OutOfMemory => (st, none)
        | .Timeout => (st, none)
        | .Outdated => (match env.acquire2 with
            | .ok _ => presentFrame st rects_in
            | .error _ => (st, none))
        | .Lost => (match env.acquire2 with
            | .ok _ => presentFrame st rects_in
            | .error _ => (st, none))

lemma getD_set_self {α : Type} (l : List α) (i : Nat) (v d : α) (h : i < l.length) :
    (l.set i v).getD i d = v := by
  rw [List.getD_eq_getElem?_getD, List.getElem?_set_eq_of_lt v h]
  rfl

lemma getD_set_ne {α : Type} (l : List α) (i j : Nat) (v d : α) (h : i ≠ j) :
    (l.set i v).getD j d = l.getD j d := by
  rw [List.getD_eq_getElem?_getD, List.getElem?_set_ne h, ← List.getD_eq_getElem?_getD]

/-- C8: for every resize to `(W, H)` with `W, H ≥ 1`, the projection
uniform written is `(-1, +1, 2/W, -2/H)`, under which `(0, 0)` maps to NDC
`(-1, +1)` and `(W, H)` maps to `(+1, -1)`. -/
theorem C8_resize_projection (st : WgpuRenderer) (W H : Nat) (hW : 1 ≤ W) (hH : 1 ≤ H) :
    (st.resize W H).proj_uniform =
      { offset_x := -1, offset_y := 1, scale_x := 2 / (W : ℚ), scale_y := -2 / (H : ℚ) }
    ∧ ndcOf ((st.resize W H).proj_uniform) (0, 0) = (-1, 1)
    ∧ ndcOf ((st.resize W H).proj_uniform) ((W : ℚ), (H : ℚ)) = (1, -1) := by
  have hWQ : (W : ℚ) ≠ 0 := Nat.cast_ne_zero.mpr (by omega)
  have hHQ : (H : ℚ) ≠ 0 := Nat.cast_ne_zero.mpr (by omega)
  have hmaxW : max W 1 = W := Nat.max_eq_left hW
  have hmaxH : max H 1 = H := Nat.max_eq_left hH
  have hproj : (st.resize W H).proj_uniform =
      { offset_x := -1, offset_y := 1, scale_x := 2 / (W : ℚ), scale_y := -2 / (H : ℚ) } := by
    simp [WgpuRenderer.resize, projection_from_size, hmaxW, hmaxH]
  refine ⟨hproj, ?_, ?_⟩
  · rw [hproj]
    simp [ndcOf]
  · rw [hproj]
    simp only [ndcOf, Prod.mk.injEq]
    constructor
    · field_simp
      norm_num
    · field_simp
      ring

/-- Witness for C8: resize of a freshly constructed renderer to 800×600
yields the uniform `(-1, +1, 2/800, -2/600)` and the stated corner NDC
mappings. -/
theorem C8_resize_projection_witness :
    (1 ≤ 800 ∧ 1 ≤ 600) ∧
    (((WgpuRenderer.new (640, 480) false false false
          AtlasEvictionPolicy.LruMinOccupancy).resize 800 600).proj_uniform =
        { offset_x := -1, offset_y := 1, scale_x := 2 / (800 : ℚ), scale_y := -2 / (600 : ℚ) }
      ∧ ndcOf (((WgpuRenderer.new (640, 480) false false false
          AtlasEvictionPolicy.LruMinOccupancy).resize 800 600).proj_uniform) (0, 0) = (-1, 1)
      ∧ ndcOf (((WgpuRenderer.new (640, 480) false false false
          AtlasEvictionPolicy.LruMinOccupancy).resize 800 600).proj_uniform)
          ((800 : ℚ), (600 : ℚ)) = (1, -1)) :=
  ⟨⟨by decide, by decide⟩,
    C8_resize_projection (WgpuRenderer.new (640, 480) false false false
      AtlasEvictionPolicy.LruMinOccupancy) 800 600 (by decide) (by decide)⟩

/-- C10: whenever `draw_rects` abandons the frame early (surface creation
failure, or swapchain acquisition failure even after the one
reconfigure-and-retry), the staged buffers `pending_text` and `pending_bg`
and the recorded `pending_clear` color are exactly as they were on entry. -/
theorem C10_dropped_frame_atomic (env : FrameEnv) (st : WgpuRenderer)
    (rects_in : List RenderRect)
    (hdrop : (draw_rects env st rects_in).2 = none) :
    (draw_rects env st rects_in).1.pending_text = st.pending_text
    ∧ (draw_rects env st rects_in).1.pending_bg = st.pending_bg
    ∧ (draw_rects env st rects_in).1.pending_clear = st.pending_clear := by
  have key : (draw_rects env st rects_in).1 = st := by
    rcases env with ⟨cs, a1, a2⟩
    cases cs
    · rfl
    · cases a1 with
      | ok u => simp [draw_rects, presentFrame] at hdrop
      | error e =>
        cases e
        · cases a2 with
          | ok u => simp [draw_rects, presentFrame] at hdrop
          | error e2 => rfl
        · cases a2 with
          | ok u => simp [draw_rects, presentFrame] at hdrop
          | error e2 => rfl
        · rfl
        · rfl
  rw [key]
  exact ⟨rfl, rfl, rfl⟩

/-- Frame environment in which surface creation fails (C10 witness input). -/
def dropEnv : FrameEnv :=
  { create_surface_ok := false, acquire1 := Except.ok (), acquire2 := Except.ok () }

/-- Renderer state with nonempty staged buffers (C10 witness input). -/
def stagedState : WgpuRenderer :=
  { WgpuRenderer.new (100, 100) false false false AtlasEvictionPolicy.RoundRobin with
      pending_text := [{ pos := (1, 2), uv := (0, 0), color := (1, 2, 3, 4),
                         flags := 0, layer := 0 }],
      pending_bg := [{ x := 0, y := 0, width := 5, height := 5,
                       color := { r := 1, g := 2, b := 3 }, alpha := 1 }],
      pending_clear := some (1, 0, 0, 1) }

/-- Witness for C10: a failed surface creation with nonempty staged buffers
leaves all three staging fields untouched. -/
theorem C10_dropped_frame_atomic_witness :
    ((draw_rects dropEnv stagedState []).2 = none) ∧
    ((draw_rects dropEnv stagedState []).1.pending_text = stagedState.pending_text
      ∧ (draw_rects dropEnv stagedState []).1.pending_bg = stagedState.pending_bg
      ∧ (draw_rects dropEnv stagedState []).1.pending_clear = stagedState.pending_clear) :=
  ⟨rfl, C10_dropped_frame_atomic dropEnv stagedState [] rfl⟩

/-- C6 (counterexample): a non-hidden tab cell carrying a zero-width
character still emits a quad for that zero-width character (the source
filters the zero-width list on `!hidden` only, not on the tab case), so
quads are not suppressed for every tab-or-hidden cell. -/
theorem C6_counterexample :
    ¬ (∀ cell : RenderableCell,
        (cell.character = '\t' ∨ cell.flags.hidden = true) →
        stagedGlyphKeys cell = [(fontForFlags cell.flags, ' ')]) := by
  intro hall
  exact absurd
    (hall { character := '\t', zerowidth := some ['a'],
            flags := { hidden := false, bold := false, italic := false } } (Or.inl rfl))
    (by decide)

/-- C6 (amended): for every cell whose character is tab or whose HIDDEN
flag is set, the primary quad renders a substituted space; the zero-width
quads are suppressed in the hidden case (a non-hidden tab cell keeps its
zero-width characters). -/
theorem C6_cell_normalization (cell : RenderableCell)
    (hnorm : cell.character = '\t' ∨ cell.flags.hidden = true) :
    (stagedGlyphKeys cell).head? = some (fontForFlags cell.flags, ' ')
    ∧ (cell.flags.hidden = true →
        stagedGlyphKeys cell = [(fontForFlags cell.flags, ' ')]) := by
  constructor
  · rcases hnorm with hc | hh
    · simp [stagedGlyphKeys, hc]
    · simp [stagedGlyphKeys, hh]
  · intro hh
    cases hzw : cell.zerowidth <;> simp [stagedGlyphKeys, hh, hzw]

/-- Hidden cell carrying a zero-width character (C6 witness input). -/
def hiddenCell : RenderableCell :=
  { character := 'x', zerowidth := some ['a'],
    flags := { hidden := true, bold := false, italic := false } }

/-- Witness for C6: a hidden cell with an attached zero-width character
renders exactly one substituted-space quad. -/
theorem C6_cell_normalization_witness :
    (hiddenCell.character = '\t' ∨ hiddenCell.flags.hidden = true) ∧
    ((stagedGlyphKeys hiddenCell).head? = some (fontForFlags hiddenCell.flags, ' ')
      ∧ (hiddenCell.flags.hidden = true →
          stagedGlyphKeys hiddenCell = [(fontForFlags hiddenCell.flags, ' ')])) :=
  ⟨Or.inr rfl, C6_cell_normalization hiddenCell (Or.inr rfl)⟩

/-- Length of the modelled `zero_scratch` buffer. -/
lemma initZeroScratch_len : initZeroScratch.length = 2048 * 2048 * 4 := by
  unfold initZeroScratch
  rw [List.length_replicate]

/-- The modelled `zero_scratch` buffer holds 16777216 bytes. -/
lemma initZeroScratch_len16 : initZeroScratch.length = 16777216 := by
  rw [initZeroScratch_len]

/-- Every byte of the modelled `zero_scratch` buffer is zero. -/
lemma initZeroScratch_zero : ∀ b ∈ initZeroScratch, b = 0 :=
  fun _ hb => List.eq_of_mem_replicate hb

/-- C4: whenever `evict_one_page` runs with `zero_evicted_layer` set and a
pending eviction, the byte buffer it writes to the victim layer of the GPU
texture is zero-filled and has size exactly `2048 · 2048 · 4 = 16777216`
bytes (one RGBA8 page), provided `zero_scratch` holds its constructed
value. -/
theorem C4_eviction_zero_fill (st : WgpuRenderer) (layer : Nat)
    (hz : st.zero_evicted_layer = true)
    (hpend : st.pending_eviction = some layer)
    (hscratch : st.zero_scratch = initZeroScratch) :
    ∃ cmd, (evict_one_page st).2.2 = some cmd
      ∧ cmd.layer = layer
      ∧ cmd.data.length = 2048 * 2048 * 4
      ∧ cmd.data.length = 16777216
      ∧ (∀ b ∈ cmd.data, b = 0) := by
  unfold evict_one_page
  rw [hpend]
  dsimp only
  rw [hz]
  simp only [if_true]
  refine ⟨_, rfl, rfl, ?_, ?_, ?_⟩
  · rw [hscratch]
    exact initZeroScratch_len
  · rw [hscratch]
    exact initZeroScratch_len16
  · rw [hscratch]
    exact initZeroScratch_zero

/-- Renderer state with `zero_evicted_layer` set and an eviction pending on
layer 0 (C4 witness input). -/
def pendingEvictState : WgpuRenderer :=
  { WgpuRenderer.new (100, 100) false false true AtlasEvictionPolicy.LruMinOccupancy with
      pending_eviction := some 0 }

/-- Witness for C4: the freshly constructed renderer with
`zero_evicted_layer = true` and an eviction pending on layer 0. -/
theorem C4_eviction_zero_fill_witness :
    (pendingEvictState.zero_evicted_layer = true
      ∧ pendingEvictState.pending_eviction = some 0
      ∧ pendingEvictState.zero_scratch = initZeroScratch) ∧
    (∃ cmd, (evict_one_page pendingEvictState).2.2 = some cmd
      ∧ cmd.layer = 0
      ∧ cmd.data.length = 2048 * 2048 * 4
      ∧ cmd.data.length = 16777216
      ∧ (∀ b ∈ cmd.data, b = 0)) :=
  ⟨⟨rfl, rfl, rfl⟩,
    C4_eviction_zero_fill pendingEvictState 0 rfl rfl rfl⟩

lemma getD_set_getD {α : Type} (l : List α) (i j : Nat) (d : α) :
    (l.set i (l.getD i d)).getD j d = l.getD j d := by
  by_cases hij : i = j
  · subst hij
    by_cases hlt : i < l.length
    · rw [getD_set_self _ _ _ _ hlt]
    · rw [List.getD_eq_getElem?_getD, List.getElem?_set, if_pos rfl, if_neg hlt,
        List.getD_eq_getElem?_getD]
      rw [List.getElem?_eq_none (by omega)]
  · rw [getD_set_ne _ _ _ _ _ hij]

/-- An `insert` whose requested dimensions exceed the page dimensions is
rejected by the first guard, leaving the page untouched. -/
lemma insert_oversized {a : WgpuAtlas} {w h : Int} (hov : w > a.width ∨ h > a.height) :
    a.insert w h = (none, a) := by
  unfold WgpuAtlas.insert
  rw [if_pos hov]

/-- The probe loop finds no page when the glyph exceeds every page's
dimensions. -/
lemma probeAux_oversized (w h : Int) (cur : Nat) (fuel : Nat) :
    ∀ (i : Nat) (pages : List WgpuAtlas),
    (∀ p, p < NUM_ATLAS_PAGES →
        w > (pages.getD p (WgpuAtlas.new 0)).width
        ∨ h > (pages.getD p (WgpuAtlas.new 0)).height) →
    (probeAux w h cur i fuel pages).1 = none := by
  induction fuel with
  | zero => intro i pages hov; rfl
  | succ fuel ih =>
      intro i pages hov
      have hpage : (cur + i) % NUM_ATLAS_PAGES < NUM_ATLAS_PAGES :=
        Nat.mod_lt _ (by decide)
      have hins := insert_oversized (hov _ hpage)
      simp only [probeAux]
      rw [hins]
      dsimp only
      apply ih
      intro p hp
      rw [getD_set_getD]
      exact hov p hp

/-- `probePages` finds no page when the glyph exceeds every page's
dimensions. -/
lemma probePages_oversized (pages : List WgpuAtlas) (cur : Nat) (w h : Int)
    (hov : ∀ p, p < NUM_ATLAS_PAGES →
        w > (pages.getD p (WgpuAtlas.new 0)).width
        ∨ h > (pages.getD p (WgpuAtlas.new 0)).height) :
    (probePages pages cur w h).1 = none :=
  probeAux_oversized w h cur NUM_ATLAS_PAGES 0 pages hov

/-- Fresh renderer with the LRU policy (C3 counterexample input). -/
def freshLru : WgpuRenderer :=
  WgpuRenderer.new (100, 100) false false false AtlasEvictionPolicy.LruMinOccupancy

/-- Rasterized glyph wider than any 2048-pixel page (C3 input). -/
def bigGlyph : RasterizedGlyph :=
  { width := 3000, height := 10, top := 0, left := 0, buffer := BitmapBuffer.Rgba [] }

/-- C3 (counterexample): loading a 3000-pixel-wide glyph on a fresh
renderer returns the placeholder but nevertheless sets `pending_eviction`
(to page 0) and raises `atlas_evicted`, contradicting the claim that no
eviction is scheduled for a glyph no page can ever hold. -/
theorem C3_counterexample :
    (load_glyph freshLru bigGlyph).2.1.pending_eviction = some 0
    ∧ (load_glyph freshLru bigGlyph).2.1.atlas_evicted = true := by
  exact ⟨rfl, rfl⟩

/-- C3 (amended): a rasterized glyph whose width or height exceeds the
shared 2048-pixel page dimensions always yields the placeholder glyph
(`tex_id = 0`, zero size, zero UVs), but the loader still raises
`atlas_evicted` and leaves `pending_eviction` set, scheduling an eviction
even though no page can ever hold the glyph. -/
theorem C3_oversized_glyph (st : WgpuRenderer) (rg : RasterizedGlyph)
    (hdims : ∀ p, p < NUM_ATLAS_PAGES →
        (st.atlas_pages.getD p (WgpuAtlas.new 0)).width = 2048
        ∧ (st.atlas_pages.getD p (WgpuAtlas.new 0)).height = 2048)
    (hov : rg.width > 2048 ∨ rg.height > 2048) :
    (load_glyph st rg).1 =
      { tex_id := 0, multicolor := false, top := rg.top, left := rg.left,
        width := 0, height := 0, uv_bot := 0, uv_left := 0,
        uv_width := 0, uv_height := 0 }
    ∧ (load_glyph st rg).2.1.atlas_evicted = true
    ∧ (load_glyph st rg).2.1.pending_eviction.isSome = true := by
  have hprobe : (probePages st.atlas_pages st.current_page rg.width rg.height).1 = none := by
    apply probePages_oversized
    intro p hp
    rcases hov with hw | hh
    · exact Or.inl (by rw [(hdims p hp).1]; exact hw)
    · exact Or.inr (by rw [(hdims p hp).2]; exact hh)
  simp only [load_glyph]
  rw [hprobe]
  exact ⟨rfl, rfl, rfl⟩

/-- Witness for C3: the fresh renderer and the 3000-pixel-wide glyph. -/
theorem C3_oversized_glyph_witness :
    ((∀ p, p < NUM_ATLAS_PAGES →
        (freshLru.atlas_pages.getD p (WgpuAtlas.new 0)).width = 2048
        ∧ (freshLru.atlas_pages.getD p (WgpuAtlas.new 0)).height = 2048)
      ∧ (bigGlyph.width > 2048 ∨ bigGlyph.height > 2048)) ∧
    ((load_glyph freshLru bigGlyph).1 =
        { tex_id := 0, multicolor := false, top := bigGlyph.top, left := bigGlyph.left,
          width := 0, height := 0, uv_bot := 0, uv_left := 0,
          uv_width := 0, uv_height := 0 }
      ∧ (load_glyph freshLru bigGlyph).2.1.atlas_evicted = true
      ∧ (load_glyph freshLru bigGlyph).2.1.pending_eviction.isSome = true) :=
  ⟨⟨by decide, Or.inl (by decide)⟩,
    C3_oversized_glyph freshLru bigGlyph (by decide) (Or.inl (by decide))⟩

/-- C7: `evict_one_page` returns true iff an eviction was pending; when it
does, it clears exactly the victim page's allocator state, resets exactly
that page's `last_use`, makes the victim current, and bumps the eviction
counter by one (stated below the `u64` wrap), leaving every other page's
allocator state and `last_use` unchanged; with no pending eviction the
state is returned unchanged. -/
theorem C7_evict_frame_effect (st : WgpuRenderer)
    (hcount : st.atlas_evictions_count + 1 < U64_MOD) :
    ((evict_one_page st).1 = true ↔ st.pending_eviction.isSome = true)
    ∧ (∀ layer, st.pending_eviction = some layer →
        layer < st.atlas_pages.length → layer < st.page_meta.length →
        ((evict_one_page st).2.1.atlas_pages.getD layer (WgpuAtlas.new 0)).row_extent = 0
        ∧ ((evict_one_page st).2.1.atlas_pages.getD layer (WgpuAtlas.new 0)).row_baseline = 0
        ∧ ((evict_one_page st).2.1.atlas_pages.getD layer (WgpuAtlas.new 0)).row_tallest = 0
        ∧ ((evict_one_page st).2.1.atlas_pages.getD layer (WgpuAtlas.new 0)).used_area = 0
        ∧ (evict_one_page st).2.1.page_meta.getD layer 0 = 0
        ∧ (evict_one_page st).2.1.current_page = layer
        ∧ (evict_one_page st).2.1.atlas_evictions_count = st.atlas_evictions_count + 1
        ∧ (∀ j, j ≠ layer →
            (evict_one_page st).2.1.atlas_pages.getD j (WgpuAtlas.new 0)
              = st.atlas_pages.getD j (WgpuAtlas.new 0)
            ∧ (evict_one_page st).2.1.page_meta.getD j 0 = st.page_meta.getD j 0))
    ∧ (st.pending_eviction = none → (evict_one_page st).2.1 = st) := by
  cases hp : st.pending_eviction with
  | none =>
      refine ⟨?_, ?_, ?_⟩
      · unfold evict_one_page
        rw [hp]
        simp
      · intro layer hlay
        exact absurd hlay (by simp)
      · intro _
        unfold evict_one_page
        rw [hp]
  | some layer0 =>
      refine ⟨?_, ?_, ?_⟩
      · unfold evict_one_page
        rw [hp]
        simp
      · intro layer hlay hlenp hlenm
        injection hlay with hlay
        subst hlay
        unfold evict_one_page
        rw [hp]
        dsimp only
        refine ⟨?_, ?_, ?_, ?_, ?_, rfl, ?_, ?_⟩
        · rw [getD_set_self _ _ _ _ hlenp]
          rfl
        · rw [getD_set_self _ _ _ _ hlenp]
          rfl
        · rw [getD_set_self _ _ _ _ hlenp]
          rfl
        · rw [getD_set_self _ _ _ _ hlenp]
          rfl
        · rw [getD_set_self _ _ _ _ hlenm]
        · exact Nat.mod_eq_of_lt hcount
        · intro j hj
          constructor
          · rw [getD_set_ne _ _ _ _ _ (Ne.symm hj)]
          · rw [getD_set_ne _ _ _ _ _ (Ne.symm hj)]
      · intro hnone
        exact absurd hnone (by simp)

/-- Witness for C7: the renderer with an eviction pending on layer 0. -/
theorem C7_evict_frame_effect_witness :
    (pendingEvictState.atlas_evictions_count + 1 < U64_MOD) ∧
    (((evict_one_page pendingEvictState).1 = true
        ↔ pendingEvictState.pending_eviction.isSome = true)
      ∧ (∀ layer, pendingEvictState.pending_eviction = some layer →
          layer < pendingEvictState.atlas_pages.length →
          layer < pendingEvictState.page_meta.length →
          ((evict_one_page pendingEvictState).2.1.atlas_pages.getD layer
              (WgpuAtlas.new 0)).row_extent = 0
          ∧ ((evict_one_page pendingEvictState).2.1.atlas_pages.getD layer
              (WgpuAtlas.new 0)).row_baseline = 0
          ∧ ((evict_one_page pendingEvictState).2.1.atlas_pages.getD layer
              (WgpuAtlas.new 0)).row_tallest = 0
          ∧ ((evict_one_page pendingEvictState).2.1.atlas_pages.getD layer
              (WgpuAtlas.new 0)).used_area = 0
          ∧ (evict_one_page pendingEvictState).2.1.page_meta.getD layer 0 = 0
          ∧ (evict_one_page pendingEvictState).2.1.current_page = layer
          ∧ (evict_one_page pendingEvictState).2.1.atlas_evictions_count =
              pendingEvictState.atlas_evictions_count + 1
          ∧ (∀ j, j ≠ layer →
              (evict_one_page pendingEvictState).2.1.atlas_pages.getD j (WgpuAtlas.new 0)
                = pendingEvictState.atlas_pages.getD j (WgpuAtlas.new 0)
              ∧ (evict_one_page pendingEvictState).2.1.page_meta.getD j 0
                = pendingEvictState.page_meta.getD j 0))
      ∧ (pendingEvictState.pending_eviction = none →
          (evict_one_page pendingEvictState).2.1 = pendingEvictState)) :=
  ⟨by decide, C7_evict_frame_effect pendingEvictState (by decide)⟩

/-- Non-strict lexicographic order on `(last_use, used_area)` keys. -/
def keyLe (a b : Nat × Nat) : Prop :=
  a.1 < b.1 ∨ (a.1 = b.1 ∧ a.2 ≤ b.2)

lemma keyLe_refl (a : Nat × Nat) : keyLe a a := Or.inr ⟨rfl, le_refl _⟩

lemma keyLe_trans {a b c : Nat × Nat} (h1 : keyLe a b) (h2 : keyLe b c) : keyLe a c := by
  rcases a with ⟨a1, a2⟩
  rcases b with ⟨b1, b2⟩
  rcases c with ⟨c1, c2⟩
  simp only [keyLe] at h1 h2 ⊢
  omega

lemma keyLe_of_ltb {a b : Nat × Nat} (h : keyLtb a b = true) : keyLe a b := by
  rcases a with ⟨a1, a2⟩
  rcases b with ⟨b1, b2⟩
  simp only [keyLtb, Bool.or_eq_true, Bool.and_eq_true, decide_eq_true_eq] at h
  simp only [keyLe]
  omega

lemma keyLe_of_not_ltb {a b : Nat × Nat} (h : keyLtb a b = false) : keyLe b a := by
  rcases a with ⟨a1, a2⟩
  rcases b with ⟨b1, b2⟩
  simp only [keyLtb, Bool.or_eq_false_iff, Bool.and_eq_false_iff, decide_eq_false_iff_not,
    decide_eq_true_eq] at h
  simp only [keyLe]
  omega

/-- Invariant of the LRU victim scan: starting from a best candidate whose
key is below the running bound, the result's key stays below the bound, is
minimal among all scanned indices, and the result is either the starting
candidate or a scanned index. -/
lemma lruScan_spec (meta : List Nat) (pages : List WgpuAtlas) :
    ∀ (fuel i best_i : Nat) (best_key : Nat × Nat),
    keyLe (victimKey meta pages best_i) best_key →
    (keyLe (victimKey meta pages (lruScan meta pages i fuel best_i best_key)) best_key
      ∧ (∀ j, i ≤ j → j < i + fuel →
          keyLe (victimKey meta pages (lruScan meta pages i fuel best_i best_key))
                (victimKey meta pages j))
      ∧ (lruScan meta pages i fuel best_i best_key = best_i
          ∨ lruScan meta pages i fuel best_i best_key < i + fuel))
  | 0, i, bi, bk, hbk =>
      ⟨by simpa [lruScan] using hbk,
        fun j hj1 hj2 => absurd hj2 (by omega),
        Or.inl rfl⟩
  | Nat.succ fuel, i, bi, bk, hbk => by
      rw [lruScan]
      by_cases hlt : keyLtb (victimKey meta pages i) bk = true
      · rw [if_pos hlt]
        have hrec := lruScan_spec meta pages fuel (i + 1) i (victimKey meta pages i)
          (keyLe_refl _)
        refine ⟨keyLe_trans hrec.1 (keyLe_of_ltb hlt), ?_, ?_⟩
        · intro j hj1 hj2
          by_cases hji : j = i
          · subst hji
            exact hrec.1
          · exact hrec.2.1 j (by omega) (by omega)
        · rcases hrec.2.2 with he | h2
          · right; omega
          · right; omega
      · rw [if_neg hlt]
        have hrec := lruScan_spec meta pages fuel (i + 1) bi bk hbk
        refine ⟨hrec.1, ?_, ?_⟩
        · intro j hj1 hj2
          by_cases hji : j = i
          · subst hji
            exact keyLe_trans hrec.1
              (keyLe_of_not_ltb (Bool.not_eq_true _ ▸ hlt))
          · exact hrec.2.1 j (by omega) (by omega)
        · rcases hrec.2.2 with he | h2
          · left; exact he
          · right; omega

/-- A list entry read through `getD` with default 0 is below a bound
satisfied by all entries. -/
lemma getD_lt_of_forall {l : List Nat} (hall : ∀ x ∈ l, x < U64_MOD) (i : Nat) :
    l.getD i 0 < U64_MOD := by
  rcases Nat.lt_or_ge i l.length with hlt | hge
  · rw [List.getD_eq_getElem?_getD, List.getElem?_eq_getElem hlt]
    exact hall _ (List.getElem_mem hlt)
  · rw [List.getD_eq_default _ _ hge]
    simp [U64_MOD]

/-- `selectVictimLru` minimizes the lexicographic `(last_use, used_area)`
key over all pages, given that the key of page 0 fits below the
`(u64::MAX, u64::MAX)` sentinel (true of any `u64`-valued state). -/
lemma selectVictimLru_min (meta : List Nat) (pages : List WgpuAtlas)
    (h0 : keyLe (victimKey meta pages 0) (U64_MOD - 1, U64_MOD - 1)) :
    ∀ j, j < NUM_ATLAS_PAGES →
      keyLe (victimKey meta pages (selectVictimLru meta pages))
            (victimKey meta pages j) := by
  intro j hj
  exact (lruScan_spec meta pages NUM_ATLAS_PAGES 0 0 _ h0).2.1 j (Nat.zero_le _)
    (by simpa using hj)

/-- `advance_row` does not touch `used_area`. -/
lemma advance_row_used (a : WgpuAtlas) : (a.advance_row).2.used_area = a.used_area := by
  simp only [WgpuAtlas.advance_row]
  split <;> rfl

/-- A failed `insert` does not change `used_area`. -/
lemma insert_none_used {a a' : WgpuAtlas} {w h : Int}
    (heq : a.insert w h = (none, a')) : a'.used_area = a.used_area := by
  simp only [WgpuAtlas.insert] at heq
  split_ifs at heq with h1 h2 h3 h4
  · injection heq with hr hs
    rw [← hs]
  · simp [WgpuAtlas.emitAt] at heq
  · simp [WgpuAtlas.emitAt] at heq
  · injection heq with hr hs
    rw [← hs, advance_row_used]
  · injection heq with hr hs
    rw [← hs]

/-- Replacing one page by a page of equal `used_area` preserves every
victim-selection key. -/
lemma victimKey_set {meta : List Nat} {pages : List WgpuAtlas} {page : Nat}
    {a' : WgpuAtlas}
    (hused : a'.used_area = (pages.getD page (WgpuAtlas.new 0)).used_area) (q : Nat) :
    victimKey meta (pages.set page a') q = victimKey meta pages q := by
  have hq : ((pages.set page a').getD q (WgpuAtlas.new 0)).used_area
      = (pages.getD q (WgpuAtlas.new 0)).used_area := by
    by_cases hpq : page = q
    · subst hpq
      by_cases hlt : page < pages.length
      · rw [getD_set_self _ _ _ _ hlt, hused]
      · rw [List.set_eq_of_length_le (by omega)]
    · rw [getD_set_ne _ _ _ _ _ hpq]
  unfold victimKey
  rw [hq]

/-- A probe pass that finds no page preserves every victim-selection key
(failed inserts may advance rows but never change `used_area`). -/
lemma probeAux_none_key (w h : Int) (cur : Nat) (meta : List Nat) :
    ∀ (fuel i : Nat) (pages : List WgpuAtlas),
    (probeAux w h cur i fuel pages).1 = none →
    ∀ q, victimKey meta (probeAux w h cur i fuel pages).2 q = victimKey meta pages q
  | 0, i, pages, hnone, q => rfl
  | Nat.succ fuel, i, pages, hnone, q => by
      rw [probeAux] at hnone ⊢
      rcases hr : ((pages.getD ((cur + i) % NUM_ATLAS_PAGES) (WgpuAtlas.new 0)).insert w h)
        with ⟨res, a'⟩
      rw [hr] at hnone
      cases res with
      | some p => simp at hnone
      | none =>
          dsimp only at hnone ⊢
          rw [probeAux_none_key w h cur meta fuel (i + 1) _ hnone q]
          exact victimKey_set (insert_none_used hr) q

/-- `probePages` preserves every victim-selection key when it misses. -/
lemma probePages_none_key (pages : List WgpuAtlas) (cur : Nat) (w h : Int)
    (meta : List Nat)
    (hnone : (probePages pages cur w h).1 = none) :
    ∀ q, victimKey meta (probePages pages cur w h).2 q = victimKey meta pages q :=
  probeAux_none_key w h cur meta NUM_ATLAS_PAGES 0 pages hnone

/-- C5: when every page rejects the insert (probe miss) under
`LruMinOccupancy` with no eviction already pending, the victim stored in
`pending_eviction` minimizes the lexicographic pair `(last_use, used_area)`
over all pages; in particular, among pages with equal `last_use`, one with
strictly larger `used_area` is never selected. -/
theorem C5_lru_victim_minimal (st : WgpuRenderer) (rg : RasterizedGlyph)
    (hpol : st.policy = AtlasEvictionPolicy.LruMinOccupancy)
    (hpend : st.pending_eviction = none)
    (hmiss : (probePages st.atlas_pages st.current_page rg.width rg.height).1 = none)
    (hmeta : ∀ x ∈ st.page_meta, x < U64_MOD)
    (hused : ∀ pg ∈ st.atlas_pages, pg.used_area < U64_MOD) :
    ∃ v, (load_glyph st rg).2.1.pending_eviction = some v
      ∧ (∀ j, j < NUM_ATLAS_PAGES →
          keyLe (victimKey st.page_meta st.atlas_pages v)
                (victimKey st.page_meta st.atlas_pages j))
      ∧ (∀ i j, i < NUM_ATLAS_PAGES → j < NUM_ATLAS_PAGES →
          st.page_meta.getD i 0 = st.page_meta.getD j 0 →
          (st.atlas_pages.getD i (WgpuAtlas.new 0)).used_area
            < (st.atlas_pages.getD j (WgpuAtlas.new 0)).used_area →
          v ≠ j) := by
  have hkeys := probePages_none_key st.atlas_pages st.current_page rg.width rg.height
    st.page_meta hmiss
  have h0 : keyLe (victimKey st.page_meta
      (probePages st.atlas_pages st.current_page rg.width rg.height).2 0)
      (U64_MOD - 1, U64_MOD - 1) := by
    rw [hkeys 0]
    have h1 : st.page_meta.getD 0 0 < U64_MOD := getD_lt_of_forall hmeta 0
    have h2 : (st.atlas_pages.getD 0 (WgpuAtlas.new 0)).used_area < U64_MOD := by
      rcases Nat.lt_or_ge 0 st.atlas_pages.length with hlt | hge
      · rw [List.getD_eq_getElem?_getD, List.getElem?_eq_getElem hlt]
        exact hused _ (List.getElem_mem hlt)
      · rw [List.getD_eq_default _ _ hge]
        simp [WgpuAtlas.new, U64_MOD]
    simp only [victimKey, keyLe]
    omega
  have hmin := selectVictimLru_min st.page_meta
    (probePages st.atlas_pages st.current_page rg.width rg.height).2 h0
  set v := selectVictimLru st.page_meta
    (probePages st.atlas_pages st.current_page rg.width rg.height).2 with hv
  have hminO : ∀ j, j < NUM_ATLAS_PAGES →
      keyLe (victimKey st.page_meta st.atlas_pages v)
            (victimKey st.page_meta st.atlas_pages j) := by
    intro j hj
    rw [← hkeys j, ← hkeys v]
    exact hmin j hj
  refine ⟨v, ?_, hminO, ?_⟩
  · simp only [load_glyph]
    rw [hmiss]
    dsimp only
    rw [hpend, Option.getD_none, hpol]
    dsimp only [selectVictim]
  · intro i j hi hj hts hu hvj
    have hle := hminO i hi
    rw [hvj] at hle
    simp only [victimKey, keyLe] at hle
    omega

/-- Renderer whose four pages reject any positive insert and exercise the
LRU tie-break (C5 witness input): `last_use` 3, 3, 5, 7 and `used_area`
10, 2, 6, 7 — pages 0 and 1 share the minimal `last_use`. -/
def lruTieState : WgpuRenderer :=
  { WgpuRenderer.new (100, 100) false false false AtlasEvictionPolicy.LruMinOccupancy with
      atlas_pages := [{ WgpuAtlas.new 0 with used_area := 10 },
                      { WgpuAtlas.new 0 with used_area := 2 },
                      { WgpuAtlas.new 0 with used_area := 6 },
                      { WgpuAtlas.new 0 with used_area := 7 }],
      page_meta := [3, 3, 5, 7] }

/-- One-pixel glyph used to force a probe miss on the tie-break state. -/
def smallGlyph : RasterizedGlyph :=
  { width := 1, height := 1, top := 0, left := 0, buffer := BitmapBuffer.Rgb [1, 2, 3] }

/-- Witness for C5: on `lruTieState` the probe misses and the selected
victim minimizes `(last_use, used_area)`; the tie on `last_use` between
pages 0 and 1 is broken toward the smaller `used_area`. -/
theorem C5_lru_victim_minimal_witness :
    (lruTieState.policy = AtlasEvictionPolicy.LruMinOccupancy
      ∧ lruTieState.pending_eviction = none
      ∧ (probePages lruTieState.atlas_pages lruTieState.current_page
          smallGlyph.width smallGlyph.height).1 = none
      ∧ (∀ x ∈ lruTieState.page_meta, x < U64_MOD)
      ∧ (∀ pg ∈ lruTieState.atlas_pages, pg.used_area < U64_MOD)) ∧
    (∃ v, (load_glyph lruTieState smallGlyph).2.1.pending_eviction = some v
      ∧ (∀ j, j < NUM_ATLAS_PAGES →
          keyLe (victimKey lruTieState.page_meta lruTieState.atlas_pages v)
                (victimKey lruTieState.page_meta lruTieState.atlas_pages j))
      ∧ (∀ i j, i < NUM_ATLAS_PAGES → j < NUM_ATLAS_PAGES →
          lruTieState.page_meta.getD i 0 = lruTieState.page_meta.getD j 0 →
          (lruTieState.atlas_pages.getD i (WgpuAtlas.new 0)).used_area
            < (lruTieState.atlas_pages.getD j (WgpuAtlas.new 0)).used_area →
          v ≠ j)) :=
  ⟨⟨rfl, rfl, rfl, by decide, by decide⟩,
    C5_lru_victim_minimal lruTieState smallGlyph rfl rfl rfl (by decide) (by decide)⟩

/-- Basic well-formedness of a page's cursors: nonnegative.  It holds of
fresh and cleared pages and is preserved by every nonnegative insert. -/
def PageWf (a : WgpuAtlas) : Prop :=
  0 ≤ a.row_extent ∧ 0 ≤ a.row_baseline ∧ 0 ≤ a.row_tallest

/-- A successful `insert` of a nonnegative-size request on a well-formed
page stays within the page bounds. -/
lemma insert_some_bounds {a a' : WgpuAtlas} {w h x y : Int}
    (hwf : PageWf a) (hw : 0 ≤ w) (hh : 0 ≤ h)
    (heq : a.insert w h = (some (x, y), a')) :
    0 ≤ x ∧ x + w ≤ a.width ∧ 0 ≤ y ∧ y + h ≤ a.height := by
  have hinv : Inv a.width a.height a [] :=
    ⟨rfl, rfl, hwf.1, hwf.2.1, hwf.2.2, by simp, by simp, List.Pairwise.nil⟩
  have h2 := insert_some_inv hinv hw hh heq
  exact h2.placed_in { x := x, y := y, w := w, h := h } (by simp)

/-- `insert` preserves page well-formedness for nonnegative requests. -/
lemma insert_wf {a a' : WgpuAtlas} {w h : Int} {res : Option (Int × Int)}
    (hwf : PageWf a) (hw : 0 ≤ w) (hh : 0 ≤ h)
    (heq : a.insert w h = (res, a')) : PageWf a' := by
  have hinv : Inv a.width a.height a [] :=
    ⟨rfl, rfl, hwf.1, hwf.2.1, hwf.2.2, by simp, by simp, List.Pairwise.nil⟩
  cases res with
  | none =>
      have h2 := insert_none_inv hinv heq
      exact ⟨h2.ext_nonneg, h2.base_nonneg, h2.tall_nonneg⟩
  | some p =>
      rcases p with ⟨x, y⟩
      have h2 := insert_some_inv hinv hw hh heq
      exact ⟨h2.ext_nonneg, h2.base_nonneg, h2.tall_nonneg⟩

lemma advance_row_dims (a : WgpuAtlas) :
    (a.advance_row).2.width = a.width ∧ (a.advance_row).2.height = a.height := by
  simp only [WgpuAtlas.advance_row]
  split <;> exact ⟨rfl, rfl⟩

/-- `insert` never changes the page dimensions. -/
lemma insert_dims {a a' : WgpuAtlas} {w h : Int} {res : Option (Int × Int)}
    (heq : a.insert w h = (res, a')) : a'.width = a.width ∧ a'.height = a.height := by
  simp only [WgpuAtlas.insert] at heq
  split_ifs at heq with h1 h2 h3 h4
  · injection heq with hr hs
    rw [← hs]
    exact ⟨rfl, rfl⟩
  · injection heq with hr hs
    rw [← hs]
    exact ⟨rfl, rfl⟩
  · injection heq with hr hs
    rw [← hs]
    exact ⟨(advance_row_dims a).1, (advance_row_dims a).2⟩
  · injection heq with hr hs
    rw [← hs]
    exact ⟨(advance_row_dims a).1, (advance_row_dims a).2⟩
  · injection heq with hr hs
    rw [← hs]
    exact ⟨rfl, rfl⟩

/-- Invariant of the probe pass over well-formed 2048×2048 pages: a
successful probe reports an in-range page and an in-bounds placement, and
the page dimensions survive the pass. -/
lemma probeAux_bounds (w h : Int) (cur : Nat) (hw : 0 ≤ w) (hh : 0 ≤ h) :
    ∀ (fuel i : Nat) (pages : List WgpuAtlas),
    (∀ q, PageWf (pages.getD q (WgpuAtlas.new 0))) →
    (∀ q, q < NUM_ATLAS_PAGES →
        (pages.getD q (WgpuAtlas.new 0)).width = 2048
        ∧ (pages.getD q (WgpuAtlas.new 0)).height = 2048) →
    (∀ page ox oy, (probeAux w h cur i fuel pages).1 = some (page, ox, oy) →
        page < NUM_ATLAS_PAGES
        ∧ 0 ≤ ox ∧ ox + w ≤ 2048 ∧ 0 ≤ oy ∧ oy + h ≤ 2048)
    ∧ (∀ q, q < NUM_ATLAS_PAGES →
        ((probeAux w h cur i fuel pages).2.getD q (WgpuAtlas.new 0)).width = 2048
        ∧ ((probeAux w h cur i fuel pages).2.getD q (WgpuAtlas.new 0)).height = 2048)
  | 0, i, pages, hwf, hdims =>
      ⟨fun page ox oy hsome => by simp [probeAux] at hsome, hdims⟩
  | Nat.succ fuel, i, pages, hwf, hdims => by
      rw [probeAux]
      rcases hr : ((pages.getD ((cur + i) % NUM_ATLAS_PAGES) (WgpuAtlas.new 0)).insert w h)
        with ⟨res, a'⟩
      have hpagelt : (cur + i) % NUM_ATLAS_PAGES < NUM_ATLAS_PAGES :=
        Nat.mod_lt _ (by decide)
      have hset : ∀ q,
          ((pages.set ((cur + i) % NUM_ATLAS_PAGES) a').getD q (WgpuAtlas.new 0)) = a'
          ∨ ((pages.set ((cur + i) % NUM_ATLAS_PAGES) a').getD q (WgpuAtlas.new 0))
              = pages.getD q (WgpuAtlas.new 0) := by
        intro q
        by_cases hpq : (cur + i) % NUM_ATLAS_PAGES = q
        · subst hpq
          by_cases hlt : (cur + i) % NUM_ATLAS_PAGES < pages.length
          · left
            exact getD_set_self _ _ _ _ hlt
          · right
            rw [List.set_eq_of_length_le (by omega)]
        · right
          exact getD_set_ne _ _ _ _ _ hpq
      have hwf' : ∀ q,
          PageWf ((pages.set ((cur + i) % NUM_ATLAS_PAGES) a').getD q (WgpuAtlas.new 0)) := by
        intro q
        rcases hset q with he | he <;> rw [he]
        · exact insert_wf (hwf _) hw hh hr
        · exact hwf q
      have hdims' : ∀ q, q < NUM_ATLAS_PAGES →
          ((pages.set ((cur + i) % NUM_ATLAS_PAGES) a').getD q (WgpuAtlas.new 0)).width = 2048
          ∧ ((pages.set ((cur + i) % NUM_ATLAS_PAGES) a').getD q (WgpuAtlas.new 0)).height
              = 2048 := by
        intro q hq
        rcases hset q with he | he <;> rw [he]
        · have hd := insert_dims hr
          rw [hd.1, hd.2]
          exact hdims _ hpagelt
        · exact hdims q hq
      cases res with
      | some p =>
          rcases p with ⟨ox0, oy0⟩
          dsimp only
          constructor
          · intro page ox oy hsome
            simp only [Option.some.injEq, Prod.mk.injEq] at hsome
            obtain ⟨hpg, hox, hoy⟩ := hsome
            subst hpg
            subst hox
            subst hoy
            have hb := insert_some_bounds (hwf _) hw hh hr
            rw [(hdims _ hpagelt).1, (hdims _ hpagelt).2] at hb
            exact ⟨hpagelt, hb.1, hb.2.1, hb.2.2.1, hb.2.2.2⟩
          · exact hdims'
      | none =>
          dsimp only
          exact probeAux_bounds w h cur hw hh fuel (i + 1) _ hwf' hdims'

/-- Probe-pass bounds specialized to the full page sweep. -/
lemma probePages_bounds (pages : List WgpuAtlas) (cur : Nat) (w h : Int)
    (hw : 0 ≤ w) (hh : 0 ≤ h)
    (hwf : ∀ q, PageWf (pages.getD q (WgpuAtlas.new 0)))
    (hdims : ∀ q, q < NUM_ATLAS_PAGES →
        (pages.getD q (WgpuAtlas.new 0)).width = 2048
        ∧ (pages.getD q (WgpuAtlas.new 0)).height = 2048) :
    (∀ page ox oy, (probePages pages cur w h).1 = some (page, ox, oy) →
        page < NUM_ATLAS_PAGES
        ∧ 0 ≤ ox ∧ ox + w ≤ 2048 ∧ 0 ≤ oy ∧ oy + h ≤ 2048)
    ∧ (∀ q, q < NUM_ATLAS_PAGES →
        ((probePages pages cur w h).2.getD q (WgpuAtlas.new 0)).width = 2048
        ∧ ((probePages pages cur w h).2.getD q (WgpuAtlas.new 0)).height = 2048) :=
  probeAux_bounds w h cur hw hh NUM_ATLAS_PAGES 0 pages hwf hdims

/-- Updating one page's `used_area` preserves the dimensions read from
page 0 for UV normalization. -/
lemma set_used_dims {pages : List WgpuAtlas} {page : Nat}
    (hdims : ∀ q, q < NUM_ATLAS_PAGES →
        (pages.getD q (WgpuAtlas.new 0)).width = 2048
        ∧ (pages.getD q (WgpuAtlas.new 0)).height = 2048)
    (hpage : page < NUM_ATLAS_PAGES) (u : Nat) :
    ((pages.set page { pages.getD page (WgpuAtlas.new 0) with used_area := u }).getD 0
        (WgpuAtlas.new 0)).width = 2048
    ∧ ((pages.set page { pages.getD page (WgpuAtlas.new 0) with used_area := u }).getD 0
        (WgpuAtlas.new 0)).height = 2048 := by
  by_cases hp0 : page = 0
  · subst hp0
    by_cases hlt : 0 < pages.length
    · rw [getD_set_self _ _ _ _ hlt]
      exact ⟨(hdims 0 (by decide)).1, (hdims 0 (by decide)).2⟩
    · rw [List.set_eq_of_length_le (by omega)]
      exact hdims 0 (by decide)
  · rw [getD_set_ne _ _ _ _ _ hp0]
    exact hdims 0 (by decide)

/-- C9: every glyph the loader returns from a successful atlas insert
(`tex_id > 0`) on well-formed 2048×2048 pages has
`0 ≤ uv_left`, `0 ≤ uv_bot`, `uv_left + uv_width ≤ 1` and
`uv_bot + uv_height ≤ 1`. -/
theorem C9_uv_bounds (st : WgpuRenderer) (rg : RasterizedGlyph)
    (hw : 0 ≤ rg.width) (hh : 0 ≤ rg.height)
    (hwf : ∀ q, PageWf (st.atlas_pages.getD q (WgpuAtlas.new 0)))
    (hdims : ∀ q, q < NUM_ATLAS_PAGES →
        (st.atlas_pages.getD q (WgpuAtlas.new 0)).width = 2048
        ∧ (st.atlas_pages.getD q (WgpuAtlas.new 0)).height = 2048)
    (htex : 0 < (load_glyph st rg).1.tex_id) :
    0 ≤ (load_glyph st rg).1.uv_left
    ∧ 0 ≤ (load_glyph st rg).1.uv_bot
    ∧ (load_glyph st rg).1.uv_left + (load_glyph st rg).1.uv_width ≤ 1
    ∧ (load_glyph st rg).1.uv_bot + (load_glyph st rg).1.uv_height ≤ 1 := by
  rcases hp : (probePages st.atlas_pages st.current_page rg.width rg.height).1
    with _ | v
  · simp only [load_glyph] at htex
    rw [hp] at htex
    simp at htex
  · rcases v with ⟨page, ox, oy⟩
    have hspec := probePages_bounds st.atlas_pages st.current_page rg.width rg.height
      hw hh hwf hdims
    have hb := hspec.1 page ox oy hp
    have hpages1 := hspec.2
    simp only [load_glyph]
    rw [hp]
    dsimp only
    have hd0 := set_used_dims hpages1 hb.1
      (satAdd64 (((probePages st.atlas_pages st.current_page rg.width rg.height).2.getD
          page (WgpuAtlas.new 0)).used_area)
        (wrap64 (u64ofInt rg.width * u64ofInt rg.height)))
    rw [hd0.1, hd0.2]
    have hc : ((2048 : Int) : ℚ) = (2048 : ℚ) := by norm_num
    rw [hc]
    refine ⟨?_, ?_, ?_, ?_⟩
    · exact div_nonneg (by exact_mod_cast hb.2.1) (by norm_num)
    · exact div_nonneg (by exact_mod_cast hb.2.2.2.1) (by norm_num)
    · have hsum : ((ox : ℚ)) / 2048
          + (((ox + rg.width : Int) : ℚ) / 2048 - ((ox : ℚ)) / 2048)
          = ((ox + rg.width : Int) : ℚ) / 2048 := by ring
      rw [hsum, div_le_one (by norm_num)]
      exact_mod_cast hb.2.2.1
    · have hsum : ((oy : ℚ)) / 2048
          + (((oy + rg.height : Int) : ℚ) / 2048 - ((oy : ℚ)) / 2048)
          = ((oy + rg.height : Int) : ℚ) / 2048 := by ring
      rw [hsum, div_le_one (by norm_num)]
      exact_mod_cast hb.2.2.2.2

/-- Color glyph that fits a fresh page (C9 witness input). -/
def rgbaGlyph : RasterizedGlyph :=
  { width := 10, height := 12, top := 2, left := 1,
    buffer := BitmapBuffer.Rgba (List.replicate (10 * 12 * 4) 7) }

/-- All pages of the fresh renderer are well-formed. -/
lemma freshLru_pages_wf (q : Nat) :
    PageWf (freshLru.atlas_pages.getD q (WgpuAtlas.new 0)) := by
  have hlen : freshLru.atlas_pages.length = NUM_ATLAS_PAGES := by decide
  rcases Nat.lt_or_ge q NUM_ATLAS_PAGES with hlt | hge
  · rw [List.getD_eq_getElem?_getD]
    rw [show freshLru.atlas_pages
        = List.replicate NUM_ATLAS_PAGES (WgpuAtlas.new ATLAS_SIZE) from rfl]
    rw [List.getElem?_replicate, if_pos hlt]
    exact ⟨le_refl 0, le_refl 0, le_refl 0⟩
  · rw [List.getD_eq_default _ _ (by omega)]
    exact ⟨le_refl 0, le_refl 0, le_refl 0⟩

/-- Witness for C9: a 10×12 color glyph loaded on the fresh renderer lands
in the atlas (`tex_id = 1`) with UVs inside the unit square. -/
theorem C9_uv_bounds_witness :
    (0 ≤ rgbaGlyph.width ∧ 0 ≤ rgbaGlyph.height
      ∧ (∀ q, PageWf (freshLru.atlas_pages.getD q (WgpuAtlas.new 0)))
      ∧ (∀ q, q < NUM_ATLAS_PAGES →
          (freshLru.atlas_pages.getD q (WgpuAtlas.new 0)).width = 2048
          ∧ (freshLru.atlas_pages.getD q (WgpuAtlas.new 0)).height = 2048)
      ∧ 0 < (load_glyph freshLru rgbaGlyph).1.tex_id) ∧
    (0 ≤ (load_glyph freshLru rgbaGlyph).1.uv_left
      ∧ 0 ≤ (load_glyph freshLru rgbaGlyph).1.uv_bot
      ∧ (load_glyph freshLru rgbaGlyph).1.uv_left
          + (load_glyph freshLru rgbaGlyph).1.uv_width ≤ 1
      ∧ (load_glyph freshLru rgbaGlyph).1.uv_bot
          + (load_glyph freshLru rgbaGlyph).1.uv_height ≤ 1) :=
  ⟨⟨by decide, by decide, freshLru_pages_wf, by decide, by decide⟩,
    C9_uv_bounds freshLru rgbaGlyph (by decide) (by decide) freshLru_pages_wf
      (by decide) (by decide)⟩

end OpenAgentTerminal
